import Mathlib

/-
Verification development for the streaming metabarcoding analysis engine
in scripts/07_basic_analysis.py. The Python code is shallowly embedded:
numeric cell values and accumulated counts are modelled as rationals
(the script's float arithmetic, taken exactly), the natural logarithm of
math.log is Real.log, Python None is Option.none, and a float NaN result
is Option.none. Each definition is a direct translation of the function
or code block of the same name in the script.
-/

namespace Metab

/-! ## Cell values and coercion (script lines 237-247)

A cell read by openpyxl from a sample column is None, a string, or a
number (other object types are covered by the obj constructor). Python
float(x) either succeeds or raises; we model its outcome for a string or
foreign object as an Option carried by the constructor, so the try/except
in the script becomes a total match. -/

/-- A value read from a spreadsheet cell. `str s p` is a string cell whose
Python float(s) parse outcome is `p` (none = float() raises); `num q` is a
numeric cell; `obj p` is any other object with float() outcome `p`. -/
inductive Cell where
  | missing : Cell
  | str (s : String) (p : Option ℚ) : Cell
  | num (q : ℚ) : Cell
  | obj (p : Option ℚ) : Cell
deriving DecidableEq

/-- The blank test `not val.strip()` of line 240: a string strips to the
empty string exactly when all of its characters are whitespace. -/
def isBlank (s : String) : Bool := s.toList.all Char.isWhitespace

/-- Lines 239-246: None or a blank string coerces to 0; otherwise try
float(val), and any failure coerces to 0. Total by construction, mirroring
the try/except; note a numeric cell passes through unchanged, so a
negative number stays negative. -/
def coerceCell : Cell → ℚ
  | .missing => 0
  | .str s p => if isBlank s then 0 else p.getD 0
  | .num q => q
  | .obj p => p.getD 0

/-! ## Column classifier (determine_sample_columns, lines 140-167) -/

/-- The tax_markers set of lines 147-155. -/
def tax_markers : List String :=
  ["kingdom", "kingdom_x", "kingdom_y",
   "phylum", "phylum_x", "phylum_y",
   "class", "class_x", "class_y",
   "order", "order_x", "order_y",
   "family", "family_x", "family_y",
   "genus", "genus_x", "genus_y",
   "species", "species_x", "species_y"]

/-- Python str.lower() of line 156; header names are ASCII, where
lowercasing is characterwise Char.toLower. -/
def lowerStr (s : String) : String := String.mk (s.data.map Char.toLower)

/-- Lines 156-161: the index of the first header column whose lowercase
name is a taxonomy marker. -/
def firstTaxIdx (header : List String) : Option ℕ :=
  header.findIdx? (fun c => tax_markers.contains (lowerStr c))

/-- One character of the class `[A-Za-z]`. -/
def isAsciiAlpha (c : Char) : Bool := c.isAlpha

/-- One character of the class `[0-9]`. -/
def isAsciiDigit (c : Char) : Bool := c.isDigit

/-- The regex of line 166: 2-3 letters, underscore, 1+ letters, slash,
1+ digits, then optionally a dash or slash followed by 1+ digits, end
(IGNORECASE is irrelevant since both cases are in each character
class). Because every quantified
class is followed by a character outside that class, greedy matching
without backtracking is complete, so the regex is equivalent to this
span-based functional matcher. -/
def sampleRegexMatch (s : String) : Bool :=
  let cs := s.toList
  let letters1 := cs.takeWhile isAsciiAlpha
  let rest1 := cs.dropWhile isAsciiAlpha
  decide (2 ≤ letters1.length) && decide (letters1.length ≤ 3) &&
  match rest1 with
  | '_' :: r2 =>
    let letters2 := r2.takeWhile isAsciiAlpha
    let rest2 := r2.dropWhile isAsciiAlpha
    decide (1 ≤ letters2.length) &&
    (match rest2 with
     | '/' :: r3 =>
       let digits1 := r3.takeWhile isAsciiDigit
       let rest3 := r3.dropWhile isAsciiDigit
       decide (1 ≤ digits1.length) &&
       (match rest3 with
        | [] => true
        | c :: r4 =>
          (decide (c = '-') || decide (c = '/')) &&
          (let digits2 := r4.takeWhile isAsciiDigit
           let rest4 := r4.dropWhile isAsciiDigit
           decide (1 ≤ digits2.length) && decide (rest4 = []))
        )
     | _ => false)
  | _ => false

/-- determine_sample_columns, lines 140-167: if the first taxonomy marker
sits at a positive index k, return the first k columns; otherwise (no
marker anywhere, or the marker at index 0 so that first_tax_idx > 0
fails) fall back to the sample-name regex filter. -/
def determine_sample_columns (header : List String) : List String :=
  match firstTaxIdx header with
  | some k => if 0 < k then header.take k else header.filter sampleRegexMatch
  | none => header.filter sampleRegexMatch

/-! ## Pairwise distance engine (lines 354-375) -/

/-- Bray-Curtis dissimilarity, function _bray of lines 363-367:
sum of elementwise absolute differences over the sum of both vector
sums, with 0 when the denominator is 0. -/
def bray (u v : List ℚ) : ℚ :=
  let denom := u.sum + v.sum
  if denom = 0 then 0 else (List.zipWith (fun a b => |a - b|) u v).sum / denom

/-- Jaccard dissimilarity, function _jaccard of lines 369-372:
1 minus the ratio of the number of positions positive in both vectors to
the number of positions positive in either, with 0 when the union count
is 0. -/
def jaccard (u v : List ℚ) : ℚ :=
  let inter := ((u.zip v).filter (fun p => decide (0 < p.1 ∧ 0 < p.2))).length
  let union := ((u.zip v).filter (fun p => decide (0 < p.1 ∨ 0 < p.2))).length
  if 0 < union then 1 - (inter : ℚ) / (union : ℚ) else 0

/-- Entry (i, j) of the matrix built by _pairwise (lines 354-361): the
matrix starts as zeros, each upper-triangle entry i < j is set to the
distance of rows i and j, and is mirrored to (j, i); the diagonal keeps
its initial 0. -/
def pairwiseEntry (rows : List (List ℚ)) (f : List ℚ → List ℚ → ℚ) (i j : ℕ) : ℚ :=
  if i < j then f (rows.getD i []) (rows.getD j [])
  else if j < i then f (rows.getD j []) (rows.getD i [])
  else 0

/-- A dissimilarity matrix as returned by _pairwise: the DataFrame's
index and column labels (both equal to the idx argument, in order) and
the entry function. -/
structure DistMatrix where
  labels : List String
  entry : ℕ → ℕ → ℚ

/-- _pairwise (lines 354-361): builds the mirrored matrix and labels its
rows and columns with the input index list, in input order. -/
def pairwise (rows : List (List ℚ)) (idx : List String) (f : List ℚ → List ℚ → ℚ) :
    DistMatrix :=
  { labels := idx, entry := pairwiseEntry rows f }

/-! ## Composition aggregator (lines 305-335)

After accumulation, agg_by_order[s] (and likewise genus, family) is a
Counter: finitely many taxon keys, each with an accumulated count. We
model one sample's Counter as an association list with distinct keys.
The script creates a DataFrame of 0.0 over the sorted union of keys and,
when the sample's total is positive, overwrites each of the sample's own
keys with count/total. -/

/-- sum(agg_by_order[s].values()) on line 309 (and 321, 331). -/
def rankTotal (agg : List (String × ℚ)) : ℚ := (agg.map Prod.snd).sum

/-- The composition matrix entry for taxon t of one sample (lines
307-312): count/total if the sample total is positive and t is one of
the sample's keys, otherwise the initial 0. -/
def compEntry (agg : List (String × ℚ)) (t : String) : ℚ :=
  if 0 < rankTotal agg then (((agg.lookup t).getD 0) / rankTotal agg) else 0

/-- One sample's row of the composition matrix over the taxon column
list. -/
def compRow (taxa : List String) (agg : List (String × ℚ)) : List ℚ :=
  taxa.map (compEntry agg)

/-! ## Ordination step (NMDS, lines 531-559)

The optimizer is sklearn's MDS, external to the repository; per spec
section 4.5 it is a capability that may be absent or fail. We model its
outcome as a value of MdsOutcome; the try/except of lines 532-559 makes
the step total, with every non-success path producing the empty table. -/

/-- Outcome of attempting the external NMDS optimization: the import or
the fit may fail (modelling the exception caught on line 557), or it
yields coordinates and a stress value. -/
inductive MdsOutcome where
  | unavailable : MdsOutcome
  | failure (msg : String) : MdsOutcome
  | success (coords : List (ℚ × ℚ)) (stress : ℚ) : MdsOutcome

/-- One row of the NMDS coordinate table: sample name, NMDS1, NMDS2,
stress. -/
structure NmdsRow where
  sample : String
  nmds1 : ℚ
  nmds2 : ℚ
  stress : ℚ

/-- The NMDS step of lines 531-559: keep only samples with positive
library size; if fewer than 2 remain, or the feature matrix has no
columns, or the optimizer is unavailable or fails, the result is the
empty coordinate table; otherwise each retained sample is paired with
its embedding coordinates and the shared stress. -/
def nmdsStep (samples : List String) (lib : String → ℚ) (nFeatures : ℕ)
    (mds : MdsOutcome) : List NmdsRow :=
  let samplesNonzero := samples.filter (fun s => decide (0 < lib s))
  if 2 ≤ samplesNonzero.length ∧ 0 < nFeatures then
    match mds with
    | .success coords stress =>
        (samplesNonzero.zip coords).map (fun p => ⟨p.1, p.2.1, p.2.2, stress⟩)
    | _ => []
  else []

/-! ## Row accumulator (lines 213-268)

One taxon row carries one cell per sample column (in sample-column
order, as produced by zip(sample_indices, sample_cols)) and the four
taxonomic labels resolved once per row on lines 231-234 (None when the
rank column is absent or the cell empty). The accumulator state holds
the per-sample counters, membership sets and per-rank Counter maps of
lines 214-222 plus the retained asv_counts buffer of line 224; Python
dicts and Counters with default 0 / empty set are total functions from
sample name. -/

/-- One taxon row of the input stream. -/
structure Row where
  counts : List Cell
  order_val : Option String
  family_val : Option String
  genus_val : Option String
  species_val : Option String

/-- The accumulator state of lines 213-224. -/
structure AccState where
  libsize : String → ℚ
  richness : String → ℕ
  sum_c_logc : String → ℝ
  species_sets : String → Finset String
  genus_sets : String → Finset String
  family_sets : String → Finset String
  agg_by_order : String → String → ℚ
  agg_by_genus : String → String → ℚ
  agg_by_family : String → String → ℚ
  asv_counts : List (List ℚ)

/-- The fresh state: Counters read 0, sets are empty, the buffer is
empty. -/
noncomputable def initState : AccState :=
  { libsize := fun _ => 0
    richness := fun _ => 0
    sum_c_logc := fun _ => 0
    species_sets := fun _ => ∅
    genus_sets := fun _ => ∅
    family_sets := fun _ => ∅
    agg_by_order := fun _ _ => 0
    agg_by_genus := fun _ _ => 0
    agg_by_family := fun _ _ => 0
    asv_counts := [] }

/-- Pointwise update of a map at one key. -/
def upd {α : Type} (f : String → α) (k : String) (v : α) : String → α :=
  fun x => if x = k then v else f x

/-- The membership test `val not in (None, "", "NA")` of lines 254-262. -/
def labelOk : Option String → Bool
  | none => false
  | some v => decide (v ≠ "") && decide (v ≠ "NA")

/-- Add the label to the sample's membership set when the label passes
the None/empty/NA filter (lines 254-260). -/
def addSet (sets : String → Finset String) (sname : String) (lab : Option String) :
    String → Finset String :=
  match lab with
  | some v =>
      if v ≠ "" ∧ v ≠ "NA" then upd sets sname (insert v (sets sname)) else sets
  | none => sets

/-- Add the count to the per-rank Counter for the sample when the label
passes the None/empty/NA filter (lines 257-263). -/
def addAgg (agg : String → String → ℚ) (sname : String) (lab : Option String)
    (cnt : ℚ) : String → String → ℚ :=
  match lab with
  | some v =>
      if v ≠ "" ∧ v ≠ "NA" then upd agg sname (upd (agg sname) v (agg sname v + cnt))
      else agg
  | none => agg

/-- The body of the per-sample-column loop, lines 237-263: coerce the
cell; when the count is positive, bump library size, richness and the
entropy running sum, and feed the membership sets and per-rank Counters
through the label filters. -/
noncomputable def stepSample (r : Row) (st : AccState) (p : String × Cell) : AccState :=
  let sname := p.1
  let cnt := coerceCell p.2
  if 0 < cnt then
    { libsize := upd st.libsize sname (st.libsize sname + cnt)
      richness := upd st.richness sname (st.richness sname + 1)
      sum_c_logc := upd st.sum_c_logc sname
        (st.sum_c_logc sname + (cnt : ℝ) * Real.log ((cnt : ℝ)))
      species_sets := addSet st.species_sets sname r.species_val
      genus_sets := addSet st.genus_sets sname r.genus_val
      family_sets := addSet st.family_sets sname r.family_val
      agg_by_order := addAgg st.agg_by_order sname r.order_val cnt
      agg_by_genus := addAgg st.agg_by_genus sname r.genus_val cnt
      agg_by_family := addAgg st.agg_by_family sname r.family_val cnt
      asv_counts := st.asv_counts }
  else st

/-- One iteration of the row loop, lines 230-265: fold the sample
columns, then append the row's coerced count vector to the retained
buffer when the row total is positive. -/
noncomputable def stepRow (samples : List String) (st : AccState) (r : Row) : AccState :=
  let st' := (samples.zip r.counts).foldl (stepSample r) st
  let row_counts := (samples.zip r.counts).map (fun p => coerceCell p.2)
  if 0 < row_counts.sum then { st' with asv_counts := st'.asv_counts ++ [row_counts] }
  else st'

/-- The whole accumulation pass: fold the row stream from the fresh
state. -/
noncomputable def runAccumulator (samples : List String) (rows : List Row) : AccState :=
  rows.foldl (stepRow samples) initState

/-! ## Alpha diversity (lines 274-287) -/

/-- The Shannon entropy of lines 274-281 for one sample, from its
accumulated library size N, richness and running sum S of
count * ln(count): ln(N) - S/N when N > 0 and richness > 0, else 0. -/
noncomputable def shannon (N : ℚ) (rich : ℕ) (S : ℝ) : ℝ :=
  if 0 < N ∧ 0 < rich then Real.log ((N : ℝ)) - S / ((N : ℝ)) else 0

/-- Pielou evenness of lines 284-287: H / ln(richness) when richness
exceeds 1, otherwise the missing value np.nan, modelled as none. -/
noncomputable def pielou_evenness (H : ℝ) (rich : ℕ) : Option ℝ :=
  if 1 < rich then some (H / Real.log ((rich : ℝ))) else none

/-! ## PERMANOVA fallback (run_permanova, except branch, lines 429-479)

The primary branch calls the external skbio library; the fallback of
lines 429-479 is the repository's own Anderson (2001) reimplementation,
which is what we embed. Pandas NaN group labels are Option.none, and the
dropped-NaN grouping keeps the original row positions (groups.index),
which select the distance submatrix. The 999 seeded shuffles of
np.random.default_rng(42) are modelled as an explicit list of label
lists, one per permutation, each standing for one shuffle outcome; a
NaN statistic or p-value is Option.none. -/

/-- Sum of f over the strict upper triangle i < j of an n x n index
square (np.triu_indices with k = 1). -/
def upperSum (n : ℕ) (f : ℕ → ℕ → ℚ) : ℚ :=
  ∑ i in Finset.range n, ∑ j in Finset.Ico (i + 1) n, f i j

/-- The positions and values of the non-NaN group labels, in order
(lines 430-432: groups.notna filtering keeping the index). -/
def validPairs (labels : List (Option String)) : List (ℕ × String) :=
  ((List.range labels.length).zip labels).filterMap
    (fun p => p.2.map (fun gr => (p.1, gr)))

/-- One group's contribution to the within-group sum of squares (lines
443-449 and 464-470): the sum of squared distances between pairs of
members, divided by the group size, skipped (0) when the group has
fewer than 2 members under the given labelling. -/
def groupWithin (n : ℕ) (sub : ℕ → ℕ → ℚ) (lab : List String) (gr : String) : ℚ :=
  let cnt := lab.count gr
  if 2 ≤ cnt then
    (upperSum n (fun i j =>
      if lab.getD i "" = gr ∧ lab.getD j "" = gr then (sub i j) ^ 2 else 0)) / (cnt : ℚ)
  else 0

/-- Within-group sum of squares under a labelling, summed over the
unique groups of the observed labelling. -/
def withinSS (n : ℕ) (sub : ℕ → ℕ → ℚ) (uniq : List String) (lab : List String) : ℚ :=
  (uniq.map (groupWithin n sub lab)).sum

/-- The post-guard body of the fallback PERMANOVA (lines 435-479) on
the already restricted distance function and label list: the observed
pseudo-F is (between_ss/df1)/(within_ss/df2) when df1, df2 and
within_ss are positive (else NaN), each permuted labelling contributes
an F value exactly when its within-SS is positive, and the p-value is
(1 + #permuted F at least observed F) / (1 + #contributing
permutations), NaN when the statistic is NaN or no permutation
contributed. -/
def permanova_core (g : List String) (sub : ℕ → ℕ → ℚ)
    (perms : List (List String)) : Option ℚ × Option ℚ :=
  let n := g.length
  let total_ss := upperSum n (fun i j => (sub i j) ^ 2) / (n : ℚ)
  let uniq := g.dedup
  let within_ss := withinSS n sub uniq g
  let between_ss := total_ss - within_ss
  let df1 : ℕ := uniq.length - 1
  let df2 : ℕ := n - uniq.length
  let pseudoF : Option ℚ :=
    if 0 < df1 ∧ 0 < df2 ∧ 0 < within_ss
    then some ((between_ss / (df1 : ℚ)) / (within_ss / (df2 : ℚ))) else none
  let perm_F : List ℚ := perms.filterMap (fun lab =>
    let pw := withinSS n sub uniq lab
    if 0 < df1 ∧ 0 < df2 ∧ 0 < pw
    then some (((total_ss - pw) / (df1 : ℚ)) / (pw / (df2 : ℚ))) else none)
  let pval : Option ℚ :=
    match pseudoF with
    | none => none
    | some F =>
        if perm_F.length = 0 then none
        else some ((1 + ((perm_F.filter (fun x => decide (F ≤ x))).length : ℚ))
                     / (1 + (perm_F.length : ℚ)))
  (pseudoF, pval)

/-- The fallback PERMANOVA of lines 429-479, returning
(pseudoF, pvalue). NaN labels are dropped; with fewer than 3 labelled
samples or fewer than 2 distinct groups the result is (NaN, NaN)
without raising; otherwise the distance matrix is restricted to the
labelled rows and the Anderson computation of permanova_core runs. -/
def run_permanova_fallback (labels : List (Option String)) (dm : ℕ → ℕ → ℚ)
    (perms : List (List String)) : Option ℚ × Option ℚ :=
  let vp := validPairs labels
  let g := vp.map Prod.snd
  if g.length < 3 ∨ g.dedup.length < 2 then (none, none)
  else
    let idxs := vp.map Prod.fst
    permanova_core g (fun i j => dm (idxs.getD i 0) (idxs.getD j 0)) perms

/-- Modelled from the spec (section 4.6): the within-group sum of
squares written exactly as the spec's formula, a per-group sum of
squared member-pair distances normalized by group size, with no
small-group guard. -/
def withinSS_spec (n : ℕ) (sub : ℕ → ℕ → ℚ) (uniq : List String)
    (lab : List String) : ℚ :=
  (uniq.map (fun gr =>
    (upperSum n (fun i j =>
      if lab.getD i "" = gr ∧ lab.getD j "" = gr then (sub i j) ^ 2 else 0))
      / ((lab.count gr : ℚ)))).sum

/-- Modelled from the spec (section 4.6): the Anderson pseudo-F of a
labelling, (between-group SS / df1) / (within-group SS / df2), with the
between-group SS obtained as total SS minus the spec's within-group
SS. -/
def andersonF (g : List String) (sub : ℕ → ℕ → ℚ) (lab : List String) : ℚ :=
  let n := g.length
  let uniq := g.dedup
  let total_ss := upperSum n (fun i j => (sub i j) ^ 2) / (n : ℚ)
  let w := withinSS_spec n sub uniq lab
  let df1 : ℕ := uniq.length - 1
  let df2 : ℕ := n - uniq.length
  ((total_ss - w) / (df1 : ℚ)) / (w / (df2 : ℚ))

/-- Two distinct positions holding the same label force its count to be
at least 2. -/
lemma two_le_count_of_pos : ∀ (lab : List String) (gr : String) (i j : ℕ), i < j →
    j < lab.length → lab.getD i "" = gr → lab.getD j "" = gr → 2 ≤ lab.count gr := by
  intro lab
  induction lab with
  | nil => intro gr i j _ hj _ _; simp at hj
  | cons a t ih =>
      intro gr i j hij hj hi0 hj0
      cases i with
      | zero =>
          cases j with
          | zero => omega
          | succ j' =>
              have ha : a = gr := by simpa using hi0
              have hj' : j' < t.length := by simpa using hj
              have hjt : t.getD j' "" = gr := by simpa using hj0
              have hmem : gr ∈ t := by
                rw [← hjt, List.getD_eq_get t "" hj']
                exact List.get_mem t j' hj'
              have h1 : 0 < t.count gr := List.count_pos_iff_mem.mpr hmem
              have h2 : (a :: t).count gr = t.count gr + 1 := by
                simp [List.count_cons, ha]
              omega
      | succ i' =>
          cases j with
          | zero => omega
          | succ j' =>
              have h1 := ih gr i' j' (by omega) (by simpa using hj)
                (by simpa using hi0) (by simpa using hj0)
              have h2 : t.count gr ≤ (a :: t).count gr := by
                simp [List.count_cons]
              omega

/-- The guarded within-group sum of squares of the code equals the
spec's guard-free formula: a group with fewer than 2 members under a
full-length labelling contributes 0 either way (no member pair exists,
and an absent group divides zero by zero). -/
lemma withinSS_eq_spec (n : ℕ) (sub : ℕ → ℕ → ℚ) (uniq : List String)
    (lab : List String) (hlen : lab.length = n) :
    withinSS n sub uniq lab = withinSS_spec n sub uniq lab := by
  unfold withinSS withinSS_spec
  congr 1
  apply List.map_congr_left
  intro gr _
  rw [groupWithin]
  by_cases hc : 2 ≤ lab.count gr
  · rw [if_pos hc]
  · rw [if_neg hc]
    have hzero : upperSum n (fun i j =>
        if lab.getD i "" = gr ∧ lab.getD j "" = gr then (sub i j) ^ 2 else 0) = 0 := by
      unfold upperSum
      apply Finset.sum_eq_zero
      intro i _
      apply Finset.sum_eq_zero
      intro j hj
      show (if lab.getD i "" = gr ∧ lab.getD j "" = gr then (sub i j) ^ 2 else 0) = 0
      rw [if_neg]
      rintro ⟨h1, h2⟩
      have hj1 := (Finset.mem_Ico.mp hj).1
      have hj2 := (Finset.mem_Ico.mp hj).2
      exact hc (two_le_count_of_pos lab gr i j (by omega) (by omega) h1 h2)
    rw [hzero, zero_div]

/-- A filterMap whose guard holds on every element is a map. -/
lemma filterMap_if_eq_map {α β : Type} (q : α → Prop) [DecidablePred q] (f : α → β) :
    ∀ (l : List α), (∀ a ∈ l, q a) →
      (l.filterMap fun a => if q a then some (f a) else none) = l.map f := by
  intro l
  induction l with
  | nil => intro _; rfl
  | cons a t ih =>
      intro h
      rw [List.filterMap_cons, List.map_cons, if_pos (h a (List.mem_cons_self a t)),
        ih (fun b hb => h b (List.mem_cons_of_mem a hb))]

/-- A filterMap over a replicated element whose image is some b is the
replicated image. -/
lemma filterMap_replicate_some {α β : Type} (f : α → Option β) (a : α) (b : β)
    (h : f a = some b) : ∀ n, (List.replicate n a).filterMap f = List.replicate n b := by
  intro n
  induction n with
  | zero => rfl
  | succ k ih => rw [List.replicate_succ, List.filterMap_cons, h, List.replicate_succ, ih]

/-- A filter over a replicated element failing the predicate is empty. -/
lemma filter_replicate_false {α : Type} (p : α → Bool) (b : α) (h : p b = false) :
    ∀ n, (List.replicate n b).filter p = [] := by
  intro n
  induction n with
  | zero => rfl
  | succ k ih =>
      rw [List.replicate_succ, List.filter_cons, if_neg, ih]
      simp [h]

/-! ## Theorems -/

/-- C5 counterexample: the claim says every coerced cell value is a
non-negative numeric count, but a numeric cell holding -3 is coerced to
-3, which is negative: float() does not clamp. -/
theorem C5_coerce_counterexample :
    coerceCell (Cell.num (-3)) = -3 ∧ ¬ (0 ≤ coerceCell (Cell.num (-3))) := by
  constructor
  · rfl
  · simp [coerceCell]

/-- C5 (amended): the coercion is a total function (never raises) which
sends a missing value, a blank string, a non-numeric string and a
non-numeric object to 0, and passes any numeric value (including a
negative one) through unchanged. -/
theorem C5_coerce_amended :
    coerceCell Cell.missing = 0 ∧
    (∀ s p, isBlank s = true → coerceCell (Cell.str s p) = 0) ∧
    (∀ s, coerceCell (Cell.str s none) = 0) ∧
    coerceCell (Cell.obj none) = 0 ∧
    (∀ q, coerceCell (Cell.num q) = q) ∧
    (∀ s q, isBlank s = false → coerceCell (Cell.str s (some q)) = q) := by
  refine ⟨rfl, ?_, ?_, rfl, fun q => rfl, ?_⟩
  · intro s p h
    simp [coerceCell, h]
  · intro s
    simp [coerceCell]
  · intro s q h
    simp [coerceCell, h]

/-- C5 witness: the amended theorem applied to a blank string cell and a
numeric string cell. -/
theorem C5_coerce_witness :
    coerceCell (Cell.str " " none) = 0 ∧ coerceCell (Cell.str "7" (some 7)) = 7 :=
  ⟨C5_coerce_amended.2.1 " " none (by decide),
   C5_coerce_amended.2.2.2.2.2 "7" 7 (by decide)⟩

/-- A list's sum written as an indexed sum over its positions. -/
lemma list_sum_getD (u : List ℚ) :
    u.sum = ∑ i in Finset.range u.length, u.getD i 0 := by
  induction u with
  | nil => simp
  | cons a t ih =>
      rw [List.sum_cons, List.length_cons, Finset.sum_range_succ']
      simp only [List.getD_cons_succ, List.getD_cons_zero, ← ih]
      ring

/-- An elementwise zipWith sum written as an indexed sum over the
common positions. -/
lemma zipWith_sum_getD (g : ℚ → ℚ → ℚ) :
    ∀ (u v : List ℚ), u.length = v.length →
      (List.zipWith g u v).sum
        = ∑ i in Finset.range u.length, g (u.getD i 0) (v.getD i 0) := by
  intro u
  induction u with
  | nil => intro v _; simp
  | cons a t ih =>
      intro v h
      cases v with
      | nil => simp at h
      | cons b w =>
          have hl : t.length = w.length := by simpa using h
          rw [List.zipWith_cons_cons, List.sum_cons, List.length_cons,
            Finset.sum_range_succ']
          simp only [List.getD_cons_succ, List.getD_cons_zero, ← ih w hl]
          ring

/-- The length of a filtered zip written as the cardinality of the set
of positions satisfying the predicate. -/
lemma filter_zip_card (p : ℚ → ℚ → Prop) [∀ a b, Decidable (p a b)] :
    ∀ (u v : List ℚ), u.length = v.length →
      ((u.zip v).filter (fun q => decide (p q.1 q.2))).length
        = ((Finset.range u.length).filter
            (fun i => p (u.getD i 0) (v.getD i 0))).card := by
  intro u
  induction u with
  | nil => intro v _; simp
  | cons a t ih =>
      intro v h
      cases v with
      | nil => simp at h
      | cons b w =>
          have hl : t.length = w.length := by simpa using h
          rw [List.zip_cons_cons, List.filter_cons, List.length_cons,
            Finset.card_filter, Finset.sum_range_succ']
          simp only [List.getD_cons_succ, List.getD_cons_zero, ← Finset.card_filter,
            ← ih w hl]
          by_cases hab : p a b
          · simp [hab]
          · simp [hab]

/-- C2: the Bray-Curtis function returns the sum of coordinatewise
absolute differences over the sum of both coordinate sums (0 when that
denominator is 0), and the Jaccard function returns 1 minus the ratio of
the number of positions positive in both vectors to the number of
positions positive in either (0 when there is no such position); on the
spec's concrete vectors the values are 8/12 and 2/3. -/
theorem C2_distance_formulas :
    (∀ u v : List ℚ, u.length = v.length →
      (∀ x ∈ u, 0 ≤ x) → (∀ x ∈ v, 0 ≤ x) →
      ((u.sum + v.sum = 0 → bray u v = 0) ∧
       (u.sum + v.sum ≠ 0 →
         bray u v = (∑ i in Finset.range u.length, |u.getD i 0 - v.getD i 0|) /
           ((∑ i in Finset.range u.length, u.getD i 0)
             + (∑ i in Finset.range u.length, v.getD i 0))) ∧
       (((Finset.range u.length).filter
           (fun i => 0 < u.getD i 0 ∨ 0 < v.getD i 0)).card = 0 →
         jaccard u v = 0) ∧
       (((Finset.range u.length).filter
           (fun i => 0 < u.getD i 0 ∨ 0 < v.getD i 0)).card ≠ 0 →
         jaccard u v = 1 -
           (((Finset.range u.length).filter
               (fun i => 0 < u.getD i 0 ∧ 0 < v.getD i 0)).card : ℚ) /
           (((Finset.range u.length).filter
               (fun i => 0 < u.getD i 0 ∨ 0 < v.getD i 0)).card : ℚ)))) ∧
    bray [0, 2, 0, 4] [1, 2, 3, 0] = 8 / 12 ∧
    jaccard [1, 1, 0] [1, 0, 1] = 2 / 3 := by
  refine ⟨?_, by norm_num [bray, List.zipWith],
    by norm_num [jaccard, List.zip, List.zipWith, List.filter]⟩
  intro u v h _ _
  have hinter : ((u.zip v).filter (fun p => decide (0 < p.1 ∧ 0 < p.2))).length
      = ((Finset.range u.length).filter
          (fun i => 0 < u.getD i 0 ∧ 0 < v.getD i 0)).card :=
    filter_zip_card (fun a b => 0 < a ∧ 0 < b) u v h
  have hunion : ((u.zip v).filter (fun p => decide (0 < p.1 ∨ 0 < p.2))).length
      = ((Finset.range u.length).filter
          (fun i => 0 < u.getD i 0 ∨ 0 < v.getD i 0)).card :=
    filter_zip_card (fun a b => 0 < a ∨ 0 < b) u v h
  refine ⟨?_, ?_, ?_, ?_⟩
  · intro h0
    simp [bray, h0]
  · intro h0
    rw [bray]
    simp only [if_neg h0]
    rw [zipWith_sum_getD _ u v h, list_sum_getD u, list_sum_getD v, h]
  · intro hc
    have hz : ¬ 0 < ((u.zip v).filter (fun p => decide (0 < p.1 ∨ 0 < p.2))).length := by
      rw [hunion]
      omega
    simp only [jaccard]
    rw [if_neg hz]
  · intro hc
    have hz : 0 < ((u.zip v).filter (fun p => decide (0 < p.1 ∨ 0 < p.2))).length := by
      rw [hunion]
      omega
    simp only [jaccard]
    rw [if_pos hz, hinter, hunion]

/-- C2 witness: the formula theorem applied to the spec's concrete
vectors. -/
theorem C2_distance_witness :
    bray [0, 2, 0, 4] [1, 2, 3, 0]
      = (∑ i in Finset.range 4, |([0, 2, 0, 4] : List ℚ).getD i 0 - ([1, 2, 3, 0] : List ℚ).getD i 0|) /
        ((∑ i in Finset.range 4, ([0, 2, 0, 4] : List ℚ).getD i 0)
          + (∑ i in Finset.range 4, ([1, 2, 3, 0] : List ℚ).getD i 0)) :=
  (C2_distance_formulas.1 [0, 2, 0, 4] [1, 2, 3, 0] (by norm_num)
    (by norm_num) (by norm_num)).2.1 (by norm_num)

/-- C4 counterexample: the claim says that whenever the first taxonomy
marker sits at index k the classifier returns exactly the columns at
indices 0..k-1 (the regex fallback being reserved to headers with no
marker). On the header with "phylum" at index 0 that would be the empty
list, but the code's condition first_tax_idx > 0 fails, the regex
fallback runs, and the marker-bearing header yields a non-empty sample
list. -/
theorem C4_classifier_counterexample :
    firstTaxIdx ["phylum", "ab_c/1"] = some 0 ∧
    determine_sample_columns ["phylum", "ab_c/1"] = ["ab_c/1"] ∧
    (["ab_c/1"] : List String) ≠ ([] : List String) := by
  refine ⟨by decide, by decide, by decide⟩

/-- C4 (amended): if the first taxonomy marker is at index k > 0 the
classifier returns exactly the columns at indices 0..k-1; when the first
marker is at index 0 the regex fallback is applied, exactly as when no
marker is present anywhere; on the header s1, s2, phylum_x, genus_x the
result is s1, s2. -/
theorem C4_classifier_amended :
    (∀ header k, firstTaxIdx header = some k → 0 < k →
      determine_sample_columns header = header.take k) ∧
    (∀ header, firstTaxIdx header = some 0 →
      determine_sample_columns header = header.filter sampleRegexMatch) ∧
    (∀ header, firstTaxIdx header = none →
      determine_sample_columns header = header.filter sampleRegexMatch) ∧
    determine_sample_columns ["s1", "s2", "phylum_x", "genus_x"] = ["s1", "s2"] := by
  refine ⟨?_, ?_, ?_, by decide⟩
  · intro header k h hk
    simp [determine_sample_columns, h, hk]
  · intro header h
    simp [determine_sample_columns, h]
  · intro header h
    simp [determine_sample_columns, h]

/-- C4 witness: the amended theorem applied to a header whose first
marker is at index 1. -/
theorem C4_classifier_witness :
    0 < 1 ∧ determine_sample_columns ["s1", "phylum"] = (["s1", "phylum"] : List String).take 1 :=
  ⟨by decide, C4_classifier_amended.1 ["s1", "phylum"] 1 (by decide) (by decide)⟩

/-- The zipped absolute-difference sum is nonnegative. -/
lemma zip_abs_sum_nonneg : ∀ (u v : List ℚ),
    0 ≤ (List.zipWith (fun a b => |a - b|) u v).sum := by
  intro u
  induction u with
  | nil => intro v; simp
  | cons a t ih =>
      intro v
      cases v with
      | nil => simp
      | cons b w =>
          rw [List.zipWith_cons_cons, List.sum_cons]
          have := ih w
          have := abs_nonneg (a - b)
          linarith

/-- For componentwise nonnegative vectors, the absolute-difference sum
is at most the sum of both vector sums. -/
lemma zip_abs_sum_le : ∀ (u v : List ℚ), (∀ x ∈ u, 0 ≤ x) → (∀ x ∈ v, 0 ≤ x) →
    (List.zipWith (fun a b => |a - b|) u v).sum ≤ u.sum + v.sum := by
  intro u
  induction u with
  | nil =>
      intro v _ hv
      simpa using List.sum_nonneg hv
  | cons a t ih =>
      intro v hu hv
      cases v with
      | nil =>
          simp only [List.zipWith_nil_right, List.sum_nil, List.sum_cons]
          have := List.sum_nonneg (fun x hx => hu x (List.mem_cons_of_mem a hx))
          have := hu a (List.mem_cons_self a t)
          linarith
      | cons b w =>
          have ha := hu a (List.mem_cons_self a t)
          have hb := hv b (List.mem_cons_self b w)
          have habs : |a - b| ≤ a + b := abs_sub_le_iff.mpr ⟨by linarith, by linarith⟩
          have hrec := ih w (fun x hx => hu x (List.mem_cons_of_mem a hx))
            (fun x hx => hv x (List.mem_cons_of_mem b hx))
          rw [List.zipWith_cons_cons, List.sum_cons, List.sum_cons, List.sum_cons]
          linarith

/-- Bray-Curtis of componentwise nonnegative vectors lies in the unit
interval. -/
lemma bray_bounds (u v : List ℚ) (hu : ∀ x ∈ u, 0 ≤ x) (hv : ∀ x ∈ v, 0 ≤ x) :
    0 ≤ bray u v ∧ bray u v ≤ 1 := by
  rw [bray]
  by_cases h0 : u.sum + v.sum = 0
  · simp [h0]
  · have hd : 0 < u.sum + v.sum := by
      have h1 := List.sum_nonneg hu
      have h2 := List.sum_nonneg hv
      rcases lt_or_eq_of_le (by linarith : (0 : ℚ) ≤ u.sum + v.sum) with h | h
      · exact h
      · exact absurd h.symm h0
    rw [if_neg h0]
    constructor
    · exact div_nonneg (zip_abs_sum_nonneg u v) (le_of_lt hd)
    · exact (div_le_one hd).mpr (zip_abs_sum_le u v hu hv)

/-- The intersection count never exceeds the union count. -/
lemma inter_le_union : ∀ (l : List (ℚ × ℚ)),
    ((l.filter (fun p => decide (0 < p.1 ∧ 0 < p.2))).length : ℕ)
      ≤ (l.filter (fun p => decide (0 < p.1 ∨ 0 < p.2))).length := by
  intro l
  induction l with
  | nil => simp
  | cons a t ih =>
      have h3 := ih
      simp only [Bool.decide_and, Bool.decide_or] at h3
      by_cases h1 : 0 < a.1 ∧ 0 < a.2
      · have h2 : 0 < a.1 ∨ 0 < a.2 := Or.inl h1.1
        simp [List.filter_cons, h1, h2]
        omega
      · by_cases h2 : 0 < a.1 ∨ 0 < a.2
        · simp [List.filter_cons, h1, h2]
          omega
        · simp [List.filter_cons, h1, h2]
          omega

/-- Jaccard of any two vectors lies in the unit interval. -/
lemma jaccard_bounds (u v : List ℚ) : 0 ≤ jaccard u v ∧ jaccard u v ≤ 1 := by
  simp only [jaccard]
  by_cases h0 : 0 < ((u.zip v).filter (fun p => decide (0 < p.1 ∨ 0 < p.2))).length
  · rw [if_pos h0]
    have hle := inter_le_union (u.zip v)
    have hupos : (0 : ℚ) <
        (((u.zip v).filter (fun p => decide (0 < p.1 ∨ 0 < p.2))).length : ℚ) := by
      exact_mod_cast h0
    have hratio1 :
        (((u.zip v).filter (fun p => decide (0 < p.1 ∧ 0 < p.2))).length : ℚ)
          / (((u.zip v).filter (fun p => decide (0 < p.1 ∨ 0 < p.2))).length : ℚ) ≤ 1 := by
      rw [div_le_one hupos]
      exact_mod_cast hle
    have hratio0 :
        (0 : ℚ) ≤ (((u.zip v).filter (fun p => decide (0 < p.1 ∧ 0 < p.2))).length : ℚ)
          / (((u.zip v).filter (fun p => decide (0 < p.1 ∨ 0 < p.2))).length : ℚ) :=
      div_nonneg (by positivity) (le_of_lt hupos)
    constructor
    · linarith
    · linarith
  · rw [if_neg h0]
    norm_num

/-- Entries of a positionally indexed row are nonnegative when every
row of the matrix is componentwise nonnegative (out-of-range positions
read the empty default row). -/
lemma getD_rows_nonneg (rows : List (List ℚ)) (h : ∀ r ∈ rows, ∀ x ∈ r, 0 ≤ x)
    (i : ℕ) : ∀ x ∈ rows.getD i [], 0 ≤ x := by
  by_cases hi : i < rows.length
  · rw [List.getD_eq_get rows [] hi]
    exact h _ (List.get_mem rows i hi)
  · rw [List.getD_eq_default rows [] (by omega)]
    intro x hx
    simp at hx

/-- C8: the matrix built by the pairwise engine keeps the input sample
order as its row and column labels, is symmetric with zero diagonal,
and for either supported metric on a componentwise nonnegative input
every entry lies in the unit interval. -/
theorem C8_pairwise_invariants :
    ∀ (rows : List (List ℚ)) (idx : List String) (f : List ℚ → List ℚ → ℚ),
      (pairwise rows idx f).labels = idx ∧
      (∀ i j, (pairwise rows idx f).entry i j = (pairwise rows idx f).entry j i) ∧
      (∀ i, (pairwise rows idx f).entry i i = 0) ∧
      ((∀ r ∈ rows, ∀ x ∈ r, 0 ≤ x) → (f = bray ∨ f = jaccard) →
        ∀ i j, 0 ≤ (pairwise rows idx f).entry i j ∧
          (pairwise rows idx f).entry i j ≤ 1) := by
  intro rows idx f
  refine ⟨rfl, ?_, ?_, ?_⟩
  · intro i j
    simp only [pairwise, pairwiseEntry]
    rcases lt_trichotomy i j with h | h | h
    · rw [if_pos h, if_neg (by omega : ¬ j < i), if_pos h]
    · rw [if_neg (by omega : ¬ i < j), if_neg (by omega : ¬ j < i),
        if_neg (by omega : ¬ j < i), if_neg (by omega : ¬ i < j)]
    · rw [if_neg (by omega : ¬ i < j), if_pos h, if_pos h]
  · intro i
    simp [pairwise, pairwiseEntry]
  · intro hrows hf i j
    simp only [pairwise, pairwiseEntry]
    have hbound : ∀ a b : ℕ, 0 ≤ f (rows.getD a []) (rows.getD b []) ∧
        f (rows.getD a []) (rows.getD b []) ≤ 1 := by
      intro a b
      rcases hf with rfl | rfl
      · exact bray_bounds _ _ (getD_rows_nonneg rows hrows a) (getD_rows_nonneg rows hrows b)
      · exact jaccard_bounds _ _
    rcases lt_trichotomy i j with h | h | h
    · rw [if_pos h]
      exact hbound i j
    · rw [if_neg (by omega : ¬ i < j), if_neg (by omega : ¬ j < i)]
      norm_num
    · rw [if_neg (by omega : ¬ i < j), if_pos h]
      exact hbound j i

/-- C8 witness: the invariants theorem applied to a concrete nonnegative
2-sample matrix with the Bray-Curtis metric. -/
theorem C8_pairwise_witness :
    0 ≤ (pairwise [[1, 0], [0, 2]] ["a", "b"] bray).entry 0 1 ∧
    (pairwise [[1, 0], [0, 2]] ["a", "b"] bray).entry 0 1 ≤ 1 :=
  (C8_pairwise_invariants [[1, 0], [0, 2]] ["a", "b"] bray).2.2.2
    (by norm_num) (Or.inl rfl) 0 1

/-- Looking up a key absent from an association list yields none. -/
lemma lookup_eq_none_of_not_mem (t : String) :
    ∀ (agg : List (String × ℚ)), t ∉ agg.map Prod.fst → agg.lookup t = none := by
  intro agg
  induction agg with
  | nil => intro _; rfl
  | cons kv rest ih =>
      intro h
      have hk : t ≠ kv.1 := by
        intro he
        exact h (by simp [he])
      have ht : t ∉ rest.map Prod.fst := fun hm => h (by simp [hm])
      have hb : (t == kv.1) = false := beq_eq_false_iff_ne.mpr hk
      simp [List.lookup, hb, ih ht]

/-- In an association list with distinct keys, lookup finds the stored
value of every member pair. -/
lemma lookup_eq_some_of_nodup (t : String) (c : ℚ) :
    ∀ (agg : List (String × ℚ)), (agg.map Prod.fst).Nodup → (t, c) ∈ agg →
      agg.lookup t = some c := by
  intro agg
  induction agg with
  | nil => intro _ h; simp at h
  | cons kv rest ih =>
      intro hnd hm
      rcases List.mem_cons.mp hm with he | hr
      · rw [← he]
        simp [List.lookup]
      · have hk : t ≠ kv.1 := by
          intro he
          have : t ∈ rest.map Prod.fst := by
            exact List.mem_map.mpr ⟨(t, c), hr, rfl⟩
          rw [List.map_cons] at hnd
          exact (List.nodup_cons.mp hnd).1 (he ▸ this)
        have hrest : (rest.map Prod.fst).Nodup := by
          rw [List.map_cons] at hnd
          exact (List.nodup_cons.mp hnd).2
        have hb : (t == kv.1) = false := beq_eq_false_iff_ne.mpr hk
        simp [List.lookup, hb, ih hrest hr]

/-- Summing a pointwise override at a single member key of a
duplicate-free list adds the override value when the base reads 0 at
that key. -/
lemma sum_map_override (v : ℚ) (k : String) (g : String → ℚ) (hg : g k = 0) :
    ∀ (taxa : List String), taxa.Nodup → k ∈ taxa →
      (taxa.map (fun t => if t = k then v else g t)).sum = v + (taxa.map g).sum := by
  intro taxa
  induction taxa with
  | nil => intro _ h; simp at h
  | cons a rest ih =>
      intro hnd hk
      have hnd' := List.nodup_cons.mp hnd
      by_cases ha : a = k
      · subst ha
        have hrest : (rest.map (fun t => if t = a then v else g t)) = rest.map g :=
          List.map_congr_left (fun t ht => by
            have : t ≠ a := fun he => hnd'.1 (he ▸ ht)
            simp [this])
        simp [hrest, hg]
      · have hk' : k ∈ rest := by
          rcases List.mem_cons.mp hk with he | hr
          · exact absurd he.symm ha
          · exact hr
        rw [List.map_cons, List.sum_cons, ih hnd'.2 hk', List.map_cons, List.sum_cons,
          if_neg ha]
        ring

/-- Summing the looked-up counts over a duplicate-free taxon column list
that covers all keys recovers the Counter total. -/
lemma sum_lookup_eq_rankTotal :
    ∀ (agg : List (String × ℚ)) (taxa : List String), taxa.Nodup →
      (agg.map Prod.fst).Nodup → (∀ t ∈ agg.map Prod.fst, t ∈ taxa) →
      (taxa.map (fun t => ((agg.lookup t).getD 0))).sum = rankTotal agg := by
  intro agg
  induction agg with
  | nil =>
      intro taxa _ _ _
      simp [rankTotal, List.lookup]
  | cons kv rest ih =>
      intro taxa hnd hknd hsub
      have hk : kv.1 ∈ taxa := hsub kv.1 (by simp)
      have hknd' : (rest.map Prod.fst).Nodup := by
        rw [List.map_cons] at hknd
        exact (List.nodup_cons.mp hknd).2
      have hkabs : kv.1 ∉ rest.map Prod.fst := by
        rw [List.map_cons] at hknd
        exact (List.nodup_cons.mp hknd).1
      have hsub' : ∀ t ∈ rest.map Prod.fst, t ∈ taxa := by
        intro t ht
        exact hsub t (by simp [ht])
      have hpt : (taxa.map (fun t => (((kv :: rest).lookup t).getD 0)))
          = taxa.map (fun t => if t = kv.1 then kv.2 else ((rest.lookup t).getD 0)) :=
        List.map_congr_left (fun t _ => by
          by_cases he : t = kv.1
          · simp [List.lookup, beq_iff_eq, he]
          · have hb : (t == kv.1) = false := beq_eq_false_iff_ne.mpr he
            simp [List.lookup, hb, he])
      rw [hpt, sum_map_override kv.2 kv.1 _
        (by simp [lookup_eq_none_of_not_mem kv.1 rest hkabs]) taxa hnd hk,
        ih taxa hnd hknd' hsub']
      simp [rankTotal]

/-- Distributing a common divisor out of a mapped sum. -/
lemma sum_map_div (g : String → ℚ) (c : ℚ) :
    ∀ (l : List String), (l.map (fun t => g t / c)).sum = (l.map g).sum / c := by
  intro l
  induction l with
  | nil => simp
  | cons a rest ih =>
      rw [List.map_cons, List.sum_cons, ih, List.map_cons, List.sum_cons, add_div]

/-- C7: for a sample whose per-rank Counter has distinct keys all
present in the (duplicate-free) taxon column list, every entry of its
composition row is the accumulated count divided by the sample's rank
total, the row sums to exactly 1 when the rank total is positive, and
to 0 when the rank total is 0. -/
theorem C7_composition_rows :
    ∀ (taxa : List String) (agg : List (String × ℚ)),
      taxa.Nodup → (agg.map Prod.fst).Nodup → (∀ t ∈ agg.map Prod.fst, t ∈ taxa) →
      ((∀ t c, (t, c) ∈ agg → 0 < rankTotal agg →
          compEntry agg t = c / rankTotal agg) ∧
       (0 < rankTotal agg → (compRow taxa agg).sum = 1) ∧
       (rankTotal agg = 0 → (compRow taxa agg).sum = 0)) := by
  intro taxa agg hnd hknd hsub
  refine ⟨?_, ?_, ?_⟩
  · intro t c hm htot
    rw [compEntry, if_pos htot, lookup_eq_some_of_nodup t c agg hknd hm]
    rfl
  · intro htot
    have hne : rankTotal agg ≠ 0 := ne_of_gt htot
    have hrow : compRow taxa agg
        = taxa.map (fun t => ((agg.lookup t).getD 0) / rankTotal agg) := by
      unfold compRow
      exact List.map_congr_left (fun t _ => by rw [compEntry, if_pos htot])
    rw [hrow, sum_map_div _ _ taxa, sum_lookup_eq_rankTotal agg taxa hnd hknd hsub,
      div_self hne]
  · intro htot
    have hrow : compRow taxa agg = taxa.map (fun _ => (0 : ℚ)) := by
      unfold compRow
      exact List.map_congr_left (fun t _ => by
        rw [compEntry, if_neg]
        rw [htot]
        exact lt_irrefl 0)
    rw [hrow]
    simp

/-- C7 witness: the composition theorem applied to a concrete two-taxon
Counter. -/
theorem C7_composition_witness :
    (compRow ["x", "y"] [("x", 2), ("y", 6)]).sum = 1 :=
  (C7_composition_rows ["x", "y"] [("x", 2), ("y", 6)] (by decide) (by decide)
    (by decide)).2.1 (by norm_num [rankTotal])

/-- C9: accumulation is a deterministic function of the row stream: two
runs from the fresh accumulator state over equal streams produce equal
per-sample statistics (library sizes, richness, entropy sums, membership
sets and per-rank aggregates). -/
theorem C9_accumulator_deterministic :
    ∀ (samples : List String) (rows₁ rows₂ : List Row), rows₁ = rows₂ →
      (runAccumulator samples rows₁).libsize = (runAccumulator samples rows₂).libsize ∧
      (runAccumulator samples rows₁).richness = (runAccumulator samples rows₂).richness ∧
      (runAccumulator samples rows₁).sum_c_logc = (runAccumulator samples rows₂).sum_c_logc ∧
      (runAccumulator samples rows₁).species_sets = (runAccumulator samples rows₂).species_sets ∧
      (runAccumulator samples rows₁).genus_sets = (runAccumulator samples rows₂).genus_sets ∧
      (runAccumulator samples rows₁).family_sets = (runAccumulator samples rows₂).family_sets ∧
      (runAccumulator samples rows₁).agg_by_order = (runAccumulator samples rows₂).agg_by_order ∧
      (runAccumulator samples rows₁).agg_by_genus = (runAccumulator samples rows₂).agg_by_genus ∧
      (runAccumulator samples rows₁).agg_by_family = (runAccumulator samples rows₂).agg_by_family := by
  intro samples rows₁ rows₂ h
  subst h
  exact ⟨rfl, rfl, rfl, rfl, rfl, rfl, rfl, rfl, rfl⟩

/-- C9 witness: the determinism theorem applied to two copies of a
one-row stream. -/
theorem C9_accumulator_witness :
    (runAccumulator ["a"] [⟨[Cell.num 2], none, none, none, none⟩]).libsize
      = (runAccumulator ["a"] [⟨[Cell.num 2], none, none, none, none⟩]).libsize :=
  (C9_accumulator_deterministic ["a"] _ _ rfl).1

/-- C6: the ordination step never propagates an error: with fewer than 2
samples of nonzero library size, or an empty feature matrix, or a failed
or unavailable optimizer, it returns the empty coordinate table. -/
theorem C6_nmds_degrades :
    ∀ (samples : List String) (lib : String → ℚ) (nFeatures : ℕ) (mds : MdsOutcome),
      ((samples.filter (fun s => decide (0 < lib s))).length < 2 →
        nmdsStep samples lib nFeatures mds = []) ∧
      (nFeatures = 0 → nmdsStep samples lib nFeatures mds = []) ∧
      (∀ msg, nmdsStep samples lib nFeatures (MdsOutcome.failure msg) = []) ∧
      (nmdsStep samples lib nFeatures MdsOutcome.unavailable = []) := by
  intro samples lib nFeatures mds
  refine ⟨?_, ?_, ?_, ?_⟩
  · intro h
    simp only [nmdsStep]
    rw [if_neg]
    rintro ⟨h2, -⟩
    omega
  · intro h
    subst h
    simp [nmdsStep]
  · intro msg
    simp only [nmdsStep]
    split
    · rfl
    · rfl
  · simp only [nmdsStep]
    split
    · rfl
    · rfl

/-- C6 witness: the degradation theorem applied to a single-sample input
with a successful optimizer outcome, and to an unavailable optimizer. -/
theorem C6_nmds_witness :
    nmdsStep ["a"] (fun _ => 1) 5 (MdsOutcome.success [(0, 0), (1, 1)] 0) = [] ∧
    nmdsStep ["a", "b"] (fun _ => 1) 5 MdsOutcome.unavailable = [] :=
  ⟨(C6_nmds_degrades ["a"] (fun _ => 1) 5 (MdsOutcome.success [(0, 0), (1, 1)] 0)).1
      (by decide),
   (C6_nmds_degrades ["a", "b"] (fun _ => 1) 5 MdsOutcome.unavailable).2.2.2⟩

/-- The membership sets of an accumulator state never contain the empty
string or the literal NA, and the per-rank Counters never hold mass at
those keys. -/
def cleanState (st : AccState) : Prop :=
  ∀ s, "" ∉ st.species_sets s ∧ "NA" ∉ st.species_sets s ∧
       "" ∉ st.genus_sets s ∧ "NA" ∉ st.genus_sets s ∧
       "" ∉ st.family_sets s ∧ "NA" ∉ st.family_sets s ∧
       st.agg_by_order s "" = 0 ∧ st.agg_by_order s "NA" = 0 ∧
       st.agg_by_genus s "" = 0 ∧ st.agg_by_genus s "NA" = 0 ∧
       st.agg_by_family s "" = 0 ∧ st.agg_by_family s "NA" = 0

/-- The fresh state is clean. -/
lemma cleanState_init : cleanState initState := by
  intro s
  simp [initState]

/-- Adding a filtered label preserves absence of the empty string and
NA from every membership set. -/
lemma addSet_clean {sets : String → Finset String} {sname : String} {lab : Option String}
    (h : ∀ s, "" ∉ sets s ∧ "NA" ∉ sets s) :
    ∀ s, "" ∉ addSet sets sname lab s ∧ "NA" ∉ addSet sets sname lab s := by
  intro s
  cases lab with
  | none => exact h s
  | some v =>
      rw [addSet]
      by_cases hv : v ≠ "" ∧ v ≠ "NA"
      · rw [if_pos hv]
        simp only [upd]
        by_cases hs : s = sname
        · rw [if_pos hs]
          constructor
          · intro hcon
            rcases Finset.mem_insert.mp hcon with h1 | h1
            · exact hv.1 h1.symm
            · exact (h sname).1 h1
          · intro hcon
            rcases Finset.mem_insert.mp hcon with h1 | h1
            · exact hv.2 h1.symm
            · exact (h sname).2 h1
        · rw [if_neg hs]
          exact h s
      · rw [if_neg hv]
        exact h s

/-- Adding filtered mass preserves zero mass at the empty string and NA
keys of every per-rank Counter. -/
lemma addAgg_clean {agg : String → String → ℚ} {sname : String} {lab : Option String}
    {cnt : ℚ} (h : ∀ s, agg s "" = 0 ∧ agg s "NA" = 0) :
    ∀ s, addAgg agg sname lab cnt s "" = 0 ∧ addAgg agg sname lab cnt s "NA" = 0 := by
  intro s
  cases lab with
  | none => exact h s
  | some v =>
      rw [addAgg]
      by_cases hv : v ≠ "" ∧ v ≠ "NA"
      · rw [if_pos hv]
        simp only [upd]
        by_cases hs : s = sname
        · simp only [if_pos hs, upd]
          exact ⟨by rw [if_neg (fun he => hv.1 he.symm)]; exact (h sname).1,
                 by rw [if_neg (fun he => hv.2 he.symm)]; exact (h sname).2⟩
        · simp only [if_neg hs]
          exact h s
      · rw [if_neg hv]
        exact h s

/-- One per-sample step preserves cleanliness. -/
lemma stepSample_clean (r : Row) (p : String × Cell) {st : AccState}
    (h : cleanState st) : cleanState (stepSample r st p) := by
  by_cases hc : 0 < coerceCell p.2
  · intro s
    simp only [stepSample, if_pos hc]
    refine ⟨(addSet_clean (fun s' => ⟨(h s').1, (h s').2.1⟩) s).1,
      (addSet_clean (fun s' => ⟨(h s').1, (h s').2.1⟩) s).2,
      (addSet_clean (fun s' => ⟨(h s').2.2.1, (h s').2.2.2.1⟩) s).1,
      (addSet_clean (fun s' => ⟨(h s').2.2.1, (h s').2.2.2.1⟩) s).2,
      (addSet_clean (fun s' => ⟨(h s').2.2.2.2.1, (h s').2.2.2.2.2.1⟩) s).1,
      (addSet_clean (fun s' => ⟨(h s').2.2.2.2.1, (h s').2.2.2.2.2.1⟩) s).2,
      (addAgg_clean (fun s' => ⟨(h s').2.2.2.2.2.2.1, (h s').2.2.2.2.2.2.2.1⟩) s).1,
      (addAgg_clean (fun s' => ⟨(h s').2.2.2.2.2.2.1, (h s').2.2.2.2.2.2.2.1⟩) s).2,
      (addAgg_clean (fun s' =>
        ⟨(h s').2.2.2.2.2.2.2.2.1, (h s').2.2.2.2.2.2.2.2.2.1⟩) s).1,
      (addAgg_clean (fun s' =>
        ⟨(h s').2.2.2.2.2.2.2.2.1, (h s').2.2.2.2.2.2.2.2.2.1⟩) s).2,
      (addAgg_clean (fun s' =>
        ⟨(h s').2.2.2.2.2.2.2.2.2.2.1, (h s').2.2.2.2.2.2.2.2.2.2.2⟩) s).1,
      (addAgg_clean (fun s' =>
        ⟨(h s').2.2.2.2.2.2.2.2.2.2.1, (h s').2.2.2.2.2.2.2.2.2.2.2⟩) s).2⟩
  · intro s
    simp only [stepSample, if_neg hc]
    exact h s

/-- Folding the per-sample step over any column list preserves
cleanliness. -/
lemma foldl_stepSample_clean (r : Row) :
    ∀ (l : List (String × Cell)) {st : AccState}, cleanState st →
      cleanState (l.foldl (stepSample r) st) := by
  intro l
  induction l with
  | nil => intro st h; exact h
  | cons a t ih =>
      intro st h
      rw [List.foldl_cons]
      exact ih (stepSample_clean r a h)

/-- One row step preserves cleanliness (the retained buffer is not part
of the predicate). -/
lemma stepRow_clean (samples : List String) (r : Row) {st : AccState}
    (h : cleanState st) : cleanState (stepRow samples st r) := by
  have h' := foldl_stepSample_clean r (samples.zip r.counts) h
  simp only [stepRow]
  split
  · intro s
    exact h' s
  · exact h'

/-- C10: labels that are missing, empty, or the literal NA are excluded
from membership sets and per-rank aggregates, which therefore never
contain those keys after any accumulation run; a positive count with
such a label still updates the sample's library size, richness and
entropy sum. -/
theorem C10_label_filtering :
    (∀ (samples : List String) (rows : List Row),
      cleanState (runAccumulator samples rows)) ∧
    (∀ (r : Row) (st : AccState) (sname : String) (cell : Cell),
      0 < coerceCell cell →
        (stepSample r st (sname, cell)).libsize sname
          = st.libsize sname + coerceCell cell ∧
        (stepSample r st (sname, cell)).richness sname = st.richness sname + 1 ∧
        (stepSample r st (sname, cell)).sum_c_logc sname
          = st.sum_c_logc sname
              + ((coerceCell cell : ℝ)) * Real.log ((coerceCell cell : ℝ)) ∧
        (labelOk r.species_val = false →
          (stepSample r st (sname, cell)).species_sets = st.species_sets) ∧
        (labelOk r.genus_val = false →
          (stepSample r st (sname, cell)).genus_sets = st.genus_sets ∧
          (stepSample r st (sname, cell)).agg_by_genus = st.agg_by_genus) ∧
        (labelOk r.family_val = false →
          (stepSample r st (sname, cell)).family_sets = st.family_sets ∧
          (stepSample r st (sname, cell)).agg_by_family = st.agg_by_family) ∧
        (labelOk r.order_val = false →
          (stepSample r st (sname, cell)).agg_by_order = st.agg_by_order)) := by
  constructor
  · intro samples rows
    have : ∀ (rs : List Row) (st : AccState), cleanState st →
        cleanState (rs.foldl (stepRow samples) st) := by
      intro rs
      induction rs with
      | nil => intro st h; exact h
      | cons a t ih =>
          intro st h
          rw [List.foldl_cons]
          exact ih _ (stepRow_clean samples a h)
    exact this rows initState cleanState_init
  · intro r st sname cell hc
    have hadd_set : ∀ (sets : String → Finset String) (lab : Option String),
        labelOk lab = false → addSet sets sname lab = sets := by
      intro sets lab h
      cases lab with
      | none => rfl
      | some v =>
          rw [addSet, if_neg]
          intro hv
          rw [labelOk] at h
          simp [hv.1, hv.2] at h
    have hadd_agg : ∀ (agg : String → String → ℚ) (lab : Option String),
        labelOk lab = false → addAgg agg sname lab (coerceCell cell) = agg := by
      intro agg lab h
      cases lab with
      | none => rfl
      | some v =>
          rw [addAgg, if_neg]
          intro hv
          rw [labelOk] at h
          simp [hv.1, hv.2] at h
    refine ⟨?_, ?_, ?_, ?_, ?_, ?_, ?_⟩
    · simp [stepSample, if_pos hc, upd]
    · simp [stepSample, if_pos hc, upd]
    · simp [stepSample, if_pos hc, upd]
    · intro h
      simp [stepSample, if_pos hc, hadd_set _ _ h]
    · intro h
      exact ⟨by simp [stepSample, if_pos hc, hadd_set _ _ h],
        by simp [stepSample, if_pos hc, hadd_agg _ _ h]⟩
    · intro h
      exact ⟨by simp [stepSample, if_pos hc, hadd_set _ _ h],
        by simp [stepSample, if_pos hc, hadd_agg _ _ h]⟩
    · intro h
      simp [stepSample, if_pos hc, hadd_agg _ _ h]

/-- A one-sample taxon row with a bare numeric count and no taxonomic
labels, for the spec's concrete entropy example. -/
def exRow (q : ℚ) : Row := ⟨[Cell.num q], none, none, none, none⟩

/-- The accumulator state after streaming three rows with counts 5, 3, 2
for the single sample s. -/
noncomputable def exState : AccState := runAccumulator ["s"] [exRow 5, exRow 3, exRow 2]

/-- C1: Shannon entropy is ln(N) - S/N when the accumulated library
size N and richness are positive and 0 otherwise; Pielou evenness is
H/ln(richness) when richness exceeds 1 and the missing value otherwise;
and on the accumulated sample with counts 5, 3, 2 the entropy is
ln(10) - (5 ln 5 + 3 ln 3 + 2 ln 2)/10 with evenness H/ln(3). -/
theorem C1_shannon_pielou :
    (∀ (N : ℚ) (rich : ℕ) (S : ℝ), 0 < N → 0 < rich →
      shannon N rich S = Real.log ((N : ℝ)) - S / ((N : ℝ))) ∧
    (∀ (N : ℚ) (rich : ℕ) (S : ℝ), ¬(0 < N ∧ 0 < rich) → shannon N rich S = 0) ∧
    (∀ (H : ℝ) (rich : ℕ), 1 < rich →
      pielou_evenness H rich = some (H / Real.log ((rich : ℝ)))) ∧
    (∀ (H : ℝ) (rich : ℕ), ¬ 1 < rich → pielou_evenness H rich = none) ∧
    exState.libsize "s" = 10 ∧
    exState.richness "s" = 3 ∧
    shannon (exState.libsize "s") (exState.richness "s") (exState.sum_c_logc "s")
      = Real.log 10 - (5 * Real.log 5 + 3 * Real.log 3 + 2 * Real.log 2) / 10 ∧
    pielou_evenness
        (shannon (exState.libsize "s") (exState.richness "s") (exState.sum_c_logc "s"))
        (exState.richness "s")
      = some ((Real.log 10 - (5 * Real.log 5 + 3 * Real.log 3 + 2 * Real.log 2) / 10)
          / Real.log 3) := by
  have h1 : exState.libsize "s" = 10 := by
    norm_num [exState, runAccumulator, stepRow, stepSample, exRow, coerceCell, upd,
      addSet, addAgg, initState]
  have h2 : exState.richness "s" = 3 := by
    norm_num [exState, runAccumulator, stepRow, stepSample, exRow, coerceCell, upd,
      addSet, addAgg, initState]
  have h3 : exState.sum_c_logc "s"
      = 5 * Real.log 5 + 3 * Real.log 3 + 2 * Real.log 2 := by
    norm_num [exState, runAccumulator, stepRow, stepSample, exRow, coerceCell, upd,
      addSet, addAgg, initState]
  have hshan : shannon (exState.libsize "s") (exState.richness "s")
      (exState.sum_c_logc "s")
      = Real.log 10 - (5 * Real.log 5 + 3 * Real.log 3 + 2 * Real.log 2) / 10 := by
    rw [h1, h2, h3, shannon, if_pos ⟨by norm_num, by norm_num⟩]
    norm_num
  refine ⟨?_, ?_, ?_, ?_, h1, h2, hshan, ?_⟩
  · intro N rich S hN hrich
    rw [shannon, if_pos ⟨hN, hrich⟩]
  · intro N rich S h
    rw [shannon, if_neg h]
  · intro H rich h
    rw [pielou_evenness, if_pos h]
  · intro H rich h
    rw [pielou_evenness, if_neg h]
  · rw [hshan, h2, pielou_evenness, if_pos (by norm_num)]
    norm_num

/-- C1 witness: the formula theorem applied at concrete arguments with
positive library size and richness. -/
theorem C1_shannon_witness :
    shannon 10 3 0 = Real.log ((10 : ℚ)) - 0 / ((10 : ℚ)) ∧
    pielou_evenness 0 3 = some (0 / Real.log ((3 : ℕ))) :=
  ⟨C1_shannon_pielou.1 10 3 0 (by norm_num) (by norm_num),
   C1_shannon_pielou.2.2.1 0 3 (by norm_num)⟩

/-- C10 witness: the filtering theorem applied to a row whose species
label is the literal NA and a positive concrete count. -/
theorem C10_label_witness :
    (stepSample ⟨[], none, none, none, some "NA"⟩ initState ("a", Cell.num 2)).libsize "a"
      = initState.libsize "a" + coerceCell (Cell.num 2) ∧
    (stepSample ⟨[], none, none, none, some "NA"⟩ initState ("a", Cell.num 2)).species_sets
      = initState.species_sets :=
  ⟨(C10_label_filtering.2 ⟨[], none, none, none, some "NA"⟩ initState "a" (Cell.num 2)
      (by norm_num [coerceCell])).1,
   (C10_label_filtering.2 ⟨[], none, none, none, some "NA"⟩ initState "a" (Cell.num 2)
      (by norm_num [coerceCell])).2.2.2.1 (by decide)⟩

/-- Evaluation of the post-guard PERMANOVA core when the degrees of
freedom are positive, the observed within-group sum of squares is
positive, and every permuted labelling has full length and positive
within-group sum of squares: the statistic is the spec Anderson
pseudo-F and the p-value counts permuted statistics at least as large
as the observed one over 1 plus the permutation count. -/
lemma permanova_core_eval (g : List String) (sub : ℕ → ℕ → ℚ) (perms : List (List String))
    (h2 : 2 ≤ g.dedup.length) (hlt : g.dedup.length < g.length)
    (hw : 0 < withinSS_spec g.length sub g.dedup g)
    (hperm : ∀ lab ∈ perms, lab.length = g.length ∧
      0 < withinSS_spec g.length sub g.dedup lab)
    (hne : perms.length ≠ 0) :
    permanova_core g sub perms =
      (some (andersonF g sub g),
       some ((1 + (((perms.map (andersonF g sub)).filter
           (fun x => decide (andersonF g sub g ≤ x))).length : ℚ))
         / (1 + (perms.length : ℚ)))) := by
  have hwc : withinSS g.length sub g.dedup g = withinSS_spec g.length sub g.dedup g :=
    withinSS_eq_spec _ _ _ _ rfl
  have hdf1 : 0 < g.dedup.length - 1 := by omega
  have hdf2 : 0 < g.length - g.dedup.length := by omega
  have hcond : 0 < g.dedup.length - 1 ∧ 0 < g.length - g.dedup.length ∧
      0 < withinSS g.length sub g.dedup g := ⟨hdf1, hdf2, by rw [hwc]; exact hw⟩
  have hfm : ∀ (ps : List (List String)), (∀ lab ∈ ps, lab.length = g.length ∧
        0 < withinSS_spec g.length sub g.dedup lab) →
      (ps.filterMap (fun lab =>
        if 0 < g.dedup.length - 1 ∧ 0 < g.length - g.dedup.length ∧
            0 < withinSS g.length sub g.dedup lab
        then some (((upperSum g.length (fun i j => (sub i j) ^ 2) / (g.length : ℚ)
            - withinSS g.length sub g.dedup lab) / (((g.dedup.length - 1 : ℕ)) : ℚ))
            / ((withinSS g.length sub g.dedup lab) / (((g.length - g.dedup.length : ℕ)) : ℚ)))
        else none)) = ps.map (andersonF g sub) := by
    intro ps
    induction ps with
    | nil => intro _; rfl
    | cons a t ih =>
        intro hps
        have ha := hps a (List.mem_cons_self a t)
        have hwa : withinSS g.length sub g.dedup a
            = withinSS_spec g.length sub g.dedup a :=
          withinSS_eq_spec _ _ _ _ ha.1
        rw [List.filterMap_cons, List.map_cons,
          if_pos ⟨hdf1, hdf2, by rw [hwa]; exact ha.2⟩,
          ih (fun b hb => hps b (List.mem_cons_of_mem a hb))]
        simp only [andersonF]
        rw [hwa]
  simp only [permanova_core]
  rw [if_pos hcond]
  rw [hfm perms hperm]
  simp only [List.length_map]
  rw [if_neg hne]
  rw [hwc]
  simp only [andersonF]


set_option maxHeartbeats 2000000 in
/-- C3 counterexample: the frozen claim fails past its guard in two
ways. First, with 3 labelled samples in 3 singleton groups the guard
passes (3 samples, 3 distinct groups) yet the code returns NaN pseudo-F
and NaN p-value instead of computing the claimed statistic, because the
within-group sum of squares is 0. Second, with 4 samples in 2 groups
and 999 supplied permutations of which one has zero within-group sum
of squares, the skipped permutation shrinks the p-value denominator:
the code returns p = 1/999, a value the claimed formula
(1 + count)/(1 + 999) cannot produce for any count. -/
theorem C3_permanova_counterexample :
    (3 ≤ ((validPairs [some "A", some "B", some "C"]).map Prod.snd).length ∧
     2 ≤ ((validPairs [some "A", some "B", some "C"]).map Prod.snd).dedup.length ∧
     run_permanova_fallback [some "A", some "B", some "C"]
        (fun i j => if i = j then (0 : ℚ) else 1)
        (List.replicate 999 ["A", "B", "C"]) = (none, none)) ∧
    ((List.replicate 998 ["A", "B", "B", "A"] ++ [["A", "B", "A", "B"]]).length = 999 ∧
     run_permanova_fallback [some "A", some "A", some "B", some "B"]
        (fun i j =>
          if i = j then (0 : ℚ)
          else if (i = 0 ∧ j = 2) ∨ (i = 2 ∧ j = 0) ∨ (i = 1 ∧ j = 3) ∨ (i = 3 ∧ j = 1)
            then 0
          else if (i = 0 ∧ j = 3) ∨ (i = 3 ∧ j = 0) ∨ (i = 1 ∧ j = 2) ∨ (i = 2 ∧ j = 1)
            then 2
          else 1)
        (List.replicate 998 ["A", "B", "B", "A"] ++ [["A", "B", "A", "B"]])
      = (some 3, some (1 / 999)) ∧
     ∀ c : ℕ, (1 + (c : ℚ)) / (1 + 999) ≠ 1 / 999) := by
  refine ⟨⟨by decide, by decide, ?pa⟩, ?pb1, ?pb2, ?pb3⟩
  case pa =>
    simp only [run_permanova_fallback]
    rw [if_neg (by decide)]
    simp only [permanova_core]
    rw [if_neg (fun h => absurd h.2.1 (by decide))]
  case pb1 => norm_num
  case pb2 =>
    have hg : (validPairs [some "A", some "A", some "B", some "B"]).map Prod.snd
        = ["A", "A", "B", "B"] := by decide
    have hidx : (validPairs [some "A", some "A", some "B", some "B"]).map Prod.fst
        = [0, 1, 2, 3] := by decide
    have hd : (["A", "A", "B", "B"] : List String).dedup = ["A", "B"] := by decide
    simp only [run_permanova_fallback]
    rw [if_neg (by decide)]
    simp only [hg, hidx, permanova_core, hd]
    norm_num only [List.length_cons, List.length_nil]
    have hba : ¬ (("B" : String) = "A") := by decide
    have hab : ¬ (("A" : String) = "B") := by decide
    have hW1 : Metab.withinSS 4 (fun i j =>
          if [0, 1, 2, 3].getD i 0 = [0, 1, 2, 3].getD j 0 then (0 : ℚ)
          else
            if [0, 1, 2, 3].getD i 0 = 0 ∧ [0, 1, 2, 3].getD j 0 = 2 ∨
                [0, 1, 2, 3].getD i 0 = 2 ∧ [0, 1, 2, 3].getD j 0 = 0 ∨
                  [0, 1, 2, 3].getD i 0 = 1 ∧ [0, 1, 2, 3].getD j 0 = 3 ∨
                    [0, 1, 2, 3].getD i 0 = 3 ∧ [0, 1, 2, 3].getD j 0 = 1 then 0
            else
              if [0, 1, 2, 3].getD i 0 = 0 ∧ [0, 1, 2, 3].getD j 0 = 3 ∨
                  [0, 1, 2, 3].getD i 0 = 3 ∧ [0, 1, 2, 3].getD j 0 = 0 ∨
                    [0, 1, 2, 3].getD i 0 = 1 ∧ [0, 1, 2, 3].getD j 0 = 2 ∨
                      [0, 1, 2, 3].getD i 0 = 2 ∧ [0, 1, 2, 3].getD j 0 = 1 then 2
              else 1) ["A", "B"] ["A", "A", "B", "B"] = 1 := by
      norm_num [Metab.withinSS, Metab.groupWithin, Metab.upperSum,
        Finset.sum_Ico_eq_sum_range, Finset.sum_range_succ, Finset.sum_range_zero,
        List.count_cons, hba, hab]
    have hW2 : Metab.withinSS 4 (fun i j =>
          if [0, 1, 2, 3].getD i 0 = [0, 1, 2, 3].getD j 0 then (0 : ℚ)
          else
            if [0, 1, 2, 3].getD i 0 = 0 ∧ [0, 1, 2, 3].getD j 0 = 2 ∨
                [0, 1, 2, 3].getD i 0 = 2 ∧ [0, 1, 2, 3].getD j 0 = 0 ∨
                  [0, 1, 2, 3].getD i 0 = 1 ∧ [0, 1, 2, 3].getD j 0 = 3 ∨
                    [0, 1, 2, 3].getD i 0 = 3 ∧ [0, 1, 2, 3].getD j 0 = 1 then 0
            else
              if [0, 1, 2, 3].getD i 0 = 0 ∧ [0, 1, 2, 3].getD j 0 = 3 ∨
                  [0, 1, 2, 3].getD i 0 = 3 ∧ [0, 1, 2, 3].getD j 0 = 0 ∨
                    [0, 1, 2, 3].getD i 0 = 1 ∧ [0, 1, 2, 3].getD j 0 = 2 ∨
                      [0, 1, 2, 3].getD i 0 = 2 ∧ [0, 1, 2, 3].getD j 0 = 1 then 2
              else 1) ["A", "B"] ["A", "B", "B", "A"] = 4 := by
      norm_num [Metab.withinSS, Metab.groupWithin, Metab.upperSum,
        Finset.sum_Ico_eq_sum_range, Finset.sum_range_succ, Finset.sum_range_zero,
        List.count_cons, hba, hab]
    have hW3 : Metab.withinSS 4 (fun i j =>
          if [0, 1, 2, 3].getD i 0 = [0, 1, 2, 3].getD j 0 then (0 : ℚ)
          else
            if [0, 1, 2, 3].getD i 0 = 0 ∧ [0, 1, 2, 3].getD j 0 = 2 ∨
                [0, 1, 2, 3].getD i 0 = 2 ∧ [0, 1, 2, 3].getD j 0 = 0 ∨
                  [0, 1, 2, 3].getD i 0 = 1 ∧ [0, 1, 2, 3].getD j 0 = 3 ∨
                    [0, 1, 2, 3].getD i 0 = 3 ∧ [0, 1, 2, 3].getD j 0 = 1 then 0
            else
              if [0, 1, 2, 3].getD i 0 = 0 ∧ [0, 1, 2, 3].getD j 0 = 3 ∨
                  [0, 1, 2, 3].getD i 0 = 3 ∧ [0, 1, 2, 3].getD j 0 = 0 ∨
                    [0, 1, 2, 3].getD i 0 = 1 ∧ [0, 1, 2, 3].getD j 0 = 2 ∨
                      [0, 1, 2, 3].getD i 0 = 2 ∧ [0, 1, 2, 3].getD j 0 = 1 then 2
              else 1) ["A", "B"] ["A", "B", "A", "B"] = 0 := by
      norm_num [Metab.withinSS, Metab.groupWithin, Metab.upperSum,
        Finset.sum_Ico_eq_sum_range, Finset.sum_range_succ, Finset.sum_range_zero,
        List.count_cons, hba, hab]
    have hT : Metab.upperSum 4 (fun i j =>
          (if [0, 1, 2, 3].getD i 0 = [0, 1, 2, 3].getD j 0 then (0 : ℚ)
            else
              if [0, 1, 2, 3].getD i 0 = 0 ∧ [0, 1, 2, 3].getD j 0 = 2 ∨
                  [0, 1, 2, 3].getD i 0 = 2 ∧ [0, 1, 2, 3].getD j 0 = 0 ∨
                    [0, 1, 2, 3].getD i 0 = 1 ∧ [0, 1, 2, 3].getD j 0 = 3 ∨
                      [0, 1, 2, 3].getD i 0 = 3 ∧ [0, 1, 2, 3].getD j 0 = 1 then 0
              else
                if [0, 1, 2, 3].getD i 0 = 0 ∧ [0, 1, 2, 3].getD j 0 = 3 ∨
                    [0, 1, 2, 3].getD i 0 = 3 ∧ [0, 1, 2, 3].getD j 0 = 0 ∨
                      [0, 1, 2, 3].getD i 0 = 1 ∧ [0, 1, 2, 3].getD j 0 = 2 ∨
                        [0, 1, 2, 3].getD i 0 = 2 ∧ [0, 1, 2, 3].getD j 0 = 1 then 2
                else 1) ^ 2) = 10 := by
      norm_num [Metab.withinSS, Metab.groupWithin, Metab.upperSum,
        Finset.sum_Ico_eq_sum_range, Finset.sum_range_succ, Finset.sum_range_zero,
        List.count_cons, hba, hab]
    rw [hW1, hT]
    have htrue : True ∧ True ∧ (0 : ℚ) < 1 := ⟨trivial, trivial, by norm_num⟩
    rw [if_pos htrue]
    simp only []
    have hf1 : (fun lab =>
        if True ∧ True ∧ 0 < Metab.withinSS 4
          (fun i j =>
            if [0, 1, 2, 3].getD i 0 = [0, 1, 2, 3].getD j 0 then (0 : ℚ)
            else
              if [0, 1, 2, 3].getD i 0 = 0 ∧ [0, 1, 2, 3].getD j 0 = 2 ∨
                  [0, 1, 2, 3].getD i 0 = 2 ∧ [0, 1, 2, 3].getD j 0 = 0 ∨
                    [0, 1, 2, 3].getD i 0 = 1 ∧ [0, 1, 2, 3].getD j 0 = 3 ∨
                      [0, 1, 2, 3].getD i 0 = 3 ∧ [0, 1, 2, 3].getD j 0 = 1 then 0
              else
                if [0, 1, 2, 3].getD i 0 = 0 ∧ [0, 1, 2, 3].getD j 0 = 3 ∨
                    [0, 1, 2, 3].getD i 0 = 3 ∧ [0, 1, 2, 3].getD j 0 = 0 ∨
                      [0, 1, 2, 3].getD i 0 = 1 ∧ [0, 1, 2, 3].getD j 0 = 2 ∨
                        [0, 1, 2, 3].getD i 0 = 2 ∧ [0, 1, 2, 3].getD j 0 = 1 then 2
                else 1)
          ["A", "B"] lab then
          some ((10 / 4 - Metab.withinSS 4
          (fun i j =>
            if [0, 1, 2, 3].getD i 0 = [0, 1, 2, 3].getD j 0 then (0 : ℚ)
            else
              if [0, 1, 2, 3].getD i 0 = 0 ∧ [0, 1, 2, 3].getD j 0 = 2 ∨
                  [0, 1, 2, 3].getD i 0 = 2 ∧ [0, 1, 2, 3].getD j 0 = 0 ∨
                    [0, 1, 2, 3].getD i 0 = 1 ∧ [0, 1, 2, 3].getD j 0 = 3 ∨
                      [0, 1, 2, 3].getD i 0 = 3 ∧ [0, 1, 2, 3].getD j 0 = 1 then 0
              else
                if [0, 1, 2, 3].getD i 0 = 0 ∧ [0, 1, 2, 3].getD j 0 = 3 ∨
                    [0, 1, 2, 3].getD i 0 = 3 ∧ [0, 1, 2, 3].getD j 0 = 0 ∨
                      [0, 1, 2, 3].getD i 0 = 1 ∧ [0, 1, 2, 3].getD j 0 = 2 ∨
                        [0, 1, 2, 3].getD i 0 = 2 ∧ [0, 1, 2, 3].getD j 0 = 1 then 2
                else 1)
          ["A", "B"] lab) / 1 / (Metab.withinSS 4
          (fun i j =>
            if [0, 1, 2, 3].getD i 0 = [0, 1, 2, 3].getD j 0 then (0 : ℚ)
            else
              if [0, 1, 2, 3].getD i 0 = 0 ∧ [0, 1, 2, 3].getD j 0 = 2 ∨
                  [0, 1, 2, 3].getD i 0 = 2 ∧ [0, 1, 2, 3].getD j 0 = 0 ∨
                    [0, 1, 2, 3].getD i 0 = 1 ∧ [0, 1, 2, 3].getD j 0 = 3 ∨
                      [0, 1, 2, 3].getD i 0 = 3 ∧ [0, 1, 2, 3].getD j 0 = 1 then 0
              else
                if [0, 1, 2, 3].getD i 0 = 0 ∧ [0, 1, 2, 3].getD j 0 = 3 ∨
                    [0, 1, 2, 3].getD i 0 = 3 ∧ [0, 1, 2, 3].getD j 0 = 0 ∨
                      [0, 1, 2, 3].getD i 0 = 1 ∧ [0, 1, 2, 3].getD j 0 = 2 ∨
                        [0, 1, 2, 3].getD i 0 = 2 ∧ [0, 1, 2, 3].getD j 0 = 1 then 2
                else 1)
          ["A", "B"] lab / 2))
        else none) ["A", "B", "B", "A"] = some (-3 / 4) := by
      norm_num [Metab.withinSS, Metab.groupWithin, Metab.upperSum,
        Finset.sum_Ico_eq_sum_range, Finset.sum_range_succ, Finset.sum_range_zero,
        List.count_cons, hba, hab]
    have hf2 : (if True ∧ True ∧ 0 < Metab.withinSS 4
          (fun i j =>
            if [0, 1, 2, 3].getD i 0 = [0, 1, 2, 3].getD j 0 then (0 : ℚ)
            else
              if [0, 1, 2, 3].getD i 0 = 0 ∧ [0, 1, 2, 3].getD j 0 = 2 ∨
                  [0, 1, 2, 3].getD i 0 = 2 ∧ [0, 1, 2, 3].getD j 0 = 0 ∨
                    [0, 1, 2, 3].getD i 0 = 1 ∧ [0, 1, 2, 3].getD j 0 = 3 ∨
                      [0, 1, 2, 3].getD i 0 = 3 ∧ [0, 1, 2, 3].getD j 0 = 1 then 0
              else
                if [0, 1, 2, 3].getD i 0 = 0 ∧ [0, 1, 2, 3].getD j 0 = 3 ∨
                    [0, 1, 2, 3].getD i 0 = 3 ∧ [0, 1, 2, 3].getD j 0 = 0 ∨
                      [0, 1, 2, 3].getD i 0 = 1 ∧ [0, 1, 2, 3].getD j 0 = 2 ∨
                        [0, 1, 2, 3].getD i 0 = 2 ∧ [0, 1, 2, 3].getD j 0 = 1 then 2
                else 1)
          ["A", "B"] ["A", "B", "A", "B"] then
        some ((10 / 4 - Metab.withinSS 4
          (fun i j =>
            if [0, 1, 2, 3].getD i 0 = [0, 1, 2, 3].getD j 0 then (0 : ℚ)
            else
              if [0, 1, 2, 3].getD i 0 = 0 ∧ [0, 1, 2, 3].getD j 0 = 2 ∨
                  [0, 1, 2, 3].getD i 0 = 2 ∧ [0, 1, 2, 3].getD j 0 = 0 ∨
                    [0, 1, 2, 3].getD i 0 = 1 ∧ [0, 1, 2, 3].getD j 0 = 3 ∨
                      [0, 1, 2, 3].getD i 0 = 3 ∧ [0, 1, 2, 3].getD j 0 = 1 then 0
              else
                if [0, 1, 2, 3].getD i 0 = 0 ∧ [0, 1, 2, 3].getD j 0 = 3 ∨
                    [0, 1, 2, 3].getD i 0 = 3 ∧ [0, 1, 2, 3].getD j 0 = 0 ∨
                      [0, 1, 2, 3].getD i 0 = 1 ∧ [0, 1, 2, 3].getD j 0 = 2 ∨
                        [0, 1, 2, 3].getD i 0 = 2 ∧ [0, 1, 2, 3].getD j 0 = 1 then 2
                else 1)
          ["A", "B"] ["A", "B", "A", "B"]) / 1 / (Metab.withinSS 4
          (fun i j =>
            if [0, 1, 2, 3].getD i 0 = [0, 1, 2, 3].getD j 0 then (0 : ℚ)
            else
              if [0, 1, 2, 3].getD i 0 = 0 ∧ [0, 1, 2, 3].getD j 0 = 2 ∨
                  [0, 1, 2, 3].getD i 0 = 2 ∧ [0, 1, 2, 3].getD j 0 = 0 ∨
                    [0, 1, 2, 3].getD i 0 = 1 ∧ [0, 1, 2, 3].getD j 0 = 3 ∨
                      [0, 1, 2, 3].getD i 0 = 3 ∧ [0, 1, 2, 3].getD j 0 = 1 then 0
              else
                if [0, 1, 2, 3].getD i 0 = 0 ∧ [0, 1, 2, 3].getD j 0 = 3 ∨
                    [0, 1, 2, 3].getD i 0 = 3 ∧ [0, 1, 2, 3].getD j 0 = 0 ∨
                      [0, 1, 2, 3].getD i 0 = 1 ∧ [0, 1, 2, 3].getD j 0 = 2 ∨
                        [0, 1, 2, 3].getD i 0 = 2 ∧ [0, 1, 2, 3].getD j 0 = 1 then 2
                else 1)
          ["A", "B"] ["A", "B", "A", "B"] / 2)) else none) = (none : Option ℚ) := by
      norm_num [Metab.withinSS, Metab.groupWithin, Metab.upperSum,
        Finset.sum_Ico_eq_sum_range, Finset.sum_range_succ, Finset.sum_range_zero,
        List.count_cons, hba, hab]
    have hfm1 := filterMap_replicate_some (fun lab =>
        if True ∧ True ∧ 0 < Metab.withinSS 4
          (fun i j =>
            if [0, 1, 2, 3].getD i 0 = [0, 1, 2, 3].getD j 0 then (0 : ℚ)
            else
              if [0, 1, 2, 3].getD i 0 = 0 ∧ [0, 1, 2, 3].getD j 0 = 2 ∨
                  [0, 1, 2, 3].getD i 0 = 2 ∧ [0, 1, 2, 3].getD j 0 = 0 ∨
                    [0, 1, 2, 3].getD i 0 = 1 ∧ [0, 1, 2, 3].getD j 0 = 3 ∨
                      [0, 1, 2, 3].getD i 0 = 3 ∧ [0, 1, 2, 3].getD j 0 = 1 then 0
              else
                if [0, 1, 2, 3].getD i 0 = 0 ∧ [0, 1, 2, 3].getD j 0 = 3 ∨
                    [0, 1, 2, 3].getD i 0 = 3 ∧ [0, 1, 2, 3].getD j 0 = 0 ∨
                      [0, 1, 2, 3].getD i 0 = 1 ∧ [0, 1, 2, 3].getD j 0 = 2 ∨
                        [0, 1, 2, 3].getD i 0 = 2 ∧ [0, 1, 2, 3].getD j 0 = 1 then 2
                else 1)
          ["A", "B"] lab then
          some ((10 / 4 - Metab.withinSS 4
          (fun i j =>
            if [0, 1, 2, 3].getD i 0 = [0, 1, 2, 3].getD j 0 then (0 : ℚ)
            else
              if [0, 1, 2, 3].getD i 0 = 0 ∧ [0, 1, 2, 3].getD j 0 = 2 ∨
                  [0, 1, 2, 3].getD i 0 = 2 ∧ [0, 1, 2, 3].getD j 0 = 0 ∨
                    [0, 1, 2, 3].getD i 0 = 1 ∧ [0, 1, 2, 3].getD j 0 = 3 ∨
                      [0, 1, 2, 3].getD i 0 = 3 ∧ [0, 1, 2, 3].getD j 0 = 1 then 0
              else
                if [0, 1, 2, 3].getD i 0 = 0 ∧ [0, 1, 2, 3].getD j 0 = 3 ∨
                    [0, 1, 2, 3].getD i 0 = 3 ∧ [0, 1, 2, 3].getD j 0 = 0 ∨
                      [0, 1, 2, 3].getD i 0 = 1 ∧ [0, 1, 2, 3].getD j 0 = 2 ∨
                        [0, 1, 2, 3].getD i 0 = 2 ∧ [0, 1, 2, 3].getD j 0 = 1 then 2
                else 1)
          ["A", "B"] lab) / 1 / (Metab.withinSS 4
          (fun i j =>
            if [0, 1, 2, 3].getD i 0 = [0, 1, 2, 3].getD j 0 then (0 : ℚ)
            else
              if [0, 1, 2, 3].getD i 0 = 0 ∧ [0, 1, 2, 3].getD j 0 = 2 ∨
                  [0, 1, 2, 3].getD i 0 = 2 ∧ [0, 1, 2, 3].getD j 0 = 0 ∨
                    [0, 1, 2, 3].getD i 0 = 1 ∧ [0, 1, 2, 3].getD j 0 = 3 ∨
                      [0, 1, 2, 3].getD i 0 = 3 ∧ [0, 1, 2, 3].getD j 0 = 1 then 0
              else
                if [0, 1, 2, 3].getD i 0 = 0 ∧ [0, 1, 2, 3].getD j 0 = 3 ∨
                    [0, 1, 2, 3].getD i 0 = 3 ∧ [0, 1, 2, 3].getD j 0 = 0 ∨
                      [0, 1, 2, 3].getD i 0 = 1 ∧ [0, 1, 2, 3].getD j 0 = 2 ∨
                        [0, 1, 2, 3].getD i 0 = 2 ∧ [0, 1, 2, 3].getD j 0 = 1 then 2
                else 1)
          ["A", "B"] lab / 2))
        else none) ["A", "B", "B", "A"]
      ((-3 : ℚ) / 4) hf1 998
    rw [List.filterMap_append, hfm1, List.filterMap_cons, hf2]
    simp only [List.filterMap_nil, List.append_nil, List.length_replicate]
    rw [if_neg (by norm_num : ¬ (998 = 0))]
    have hflt := filter_replicate_false
      (fun x => decide (((10 : ℚ) / 4 - 1) / 1 / (1 / 2) ≤ x)) ((-3 : ℚ) / 4)
      (by simp only [decide_eq_false_iff_not]; norm_num) 998
    rw [hflt]
    norm_num
  case pb3 =>
    intro c h
    have h1 : (1 + (c : ℚ)) * 999 = 1000 := by
      field_simp at h
      linarith
    rcases Nat.eq_zero_or_pos c with hc | hc
    · rw [hc] at h1
      norm_num at h1
    · have hge : (1 : ℚ) ≤ (c : ℚ) := by exact_mod_cast hc
      nlinarith

/-- C3 (amended): the fallback PERMANOVA returns (NaN, NaN) without
raising when fewer than 3 samples carry a group label or fewer than 2
distinct groups exist; past that guard it still returns (NaN, NaN)
whenever the Anderson statistic is undefined (a degree of freedom or
the within-group sum of squares not positive, e.g. singleton groups);
and when the statistic is defined and every one of the 999 modelled
label shuffles has positive within-group sum of squares, it returns
the Anderson pseudo-F computed from squared pairwise distances
normalized per-group by group size together with the p-value
(1 + count(permuted F at least observed F)) / (1 + 999); a shuffle
with non-positive within-group sum of squares would instead be
dropped from the p-value denominator. -/
theorem C3_permanova_fallback :
    ∀ (labels : List (Option String)) (dm : ℕ → ℕ → ℚ) (perms : List (List String)),
      ((((validPairs labels).map Prod.snd).length < 3 ∨
          ((validPairs labels).map Prod.snd).dedup.length < 2) →
        run_permanova_fallback labels dm perms = (none, none)) ∧
      (∀ (g : List String) (sub : ℕ → ℕ → ℚ),
        g = (validPairs labels).map Prod.snd →
        sub = (fun i j => dm (((validPairs labels).map Prod.fst).getD i 0)
                             (((validPairs labels).map Prod.fst).getD j 0)) →
        ¬(g.length < 3 ∨ g.dedup.length < 2) →
        ¬(0 < g.dedup.length - 1 ∧ 0 < g.length - g.dedup.length ∧
            0 < withinSS_spec g.length sub g.dedup g) →
        run_permanova_fallback labels dm perms = (none, none)) ∧
      (∀ (g : List String) (sub : ℕ → ℕ → ℚ),
        g = (validPairs labels).map Prod.snd →
        sub = (fun i j => dm (((validPairs labels).map Prod.fst).getD i 0)
                             (((validPairs labels).map Prod.fst).getD j 0)) →
        ¬(g.length < 3 ∨ g.dedup.length < 2) →
        g.dedup.length < g.length →
        0 < withinSS_spec g.length sub g.dedup g →
        perms.length = 999 →
        (∀ lab ∈ perms, lab.length = g.length ∧
          0 < withinSS_spec g.length sub g.dedup lab) →
        run_permanova_fallback labels dm perms =
          (some (andersonF g sub g),
           some ((1 + (((perms.map (andersonF g sub)).filter
               (fun x => decide (andersonF g sub g ≤ x))).length : ℚ)) / (1 + 999)))) := by
  intro labels dm perms
  refine ⟨?_, ?_, ?_⟩
  · intro h
    simp only [run_permanova_fallback]
    rw [if_pos h]
  · intro g sub hg hsub hguard hnd
    subst hg
    subst hsub
    simp only [run_permanova_fallback]
    rw [if_neg hguard]
    simp only [permanova_core]
    rw [if_neg (fun hcon => hnd
      ⟨hcon.1, hcon.2.1, (withinSS_eq_spec _ _ _ _ rfl) ▸ hcon.2.2⟩)]
  · intro g sub hg hsub hguard hlt hw hlen hperm
    subst hg
    subst hsub
    simp only [run_permanova_fallback]
    rw [if_neg hguard]
    push_neg at hguard
    rw [permanova_core_eval _ _ _ (by omega) hlt hw hperm (by omega)]
    rw [hlen]
    norm_num


/-- C3 witness: the fallback theorem applied to 3 labelled samples in 2
groups with unit cross distances and 999 identity shuffles, giving
pseudo-F 1 and p-value 1. -/
theorem C3_permanova_witness :
    run_permanova_fallback [some "A", some "A", some "B"]
        (fun i j => if i = j then (0 : ℚ) else 1)
        (List.replicate 999 ["A", "A", "B"]) = (some 1, some 1) := by
  have hg : (validPairs [some "A", some "A", some "B"]).map Prod.snd
      = ["A", "A", "B"] := by decide
  have hidx : (validPairs [some "A", some "A", some "B"]).map Prod.fst
      = [0, 1, 2] := by decide
  have hw : 0 < withinSS_spec 3
      (fun i j => if (([0, 1, 2] : List ℕ).getD i 0) = (([0, 1, 2] : List ℕ).getD j 0)
        then (0 : ℚ) else 1)
      ["A", "B"] ["A", "A", "B"] := by
    have hba : ¬ (("B" : String) = "A") := by decide
    have hab : ¬ (("A" : String) = "B") := by decide
    norm_num [withinSS_spec, upperSum, Finset.sum_Ico_eq_sum_range,
      Finset.sum_range_succ, Finset.sum_range_zero, List.count_cons, hba, hab]
  have hF : andersonF ["A", "A", "B"]
      (fun i j => if (([0, 1, 2] : List ℕ).getD i 0) = (([0, 1, 2] : List ℕ).getD j 0)
        then (0 : ℚ) else 1)
      ["A", "A", "B"] = 1 := by
    have hba : ¬ (("B" : String) = "A") := by decide
    have hab : ¬ (("A" : String) = "B") := by decide
    norm_num [andersonF, withinSS_spec, upperSum, Finset.sum_Ico_eq_sum_range,
      Finset.sum_range_succ, Finset.sum_range_zero, List.count_cons, hba, hab]
  have hd : (["A", "A", "B"] : List String).dedup = ["A", "B"] := by decide
  have heq := (C3_permanova_fallback [some "A", some "A", some "B"]
      (fun i j => if i = j then (0 : ℚ) else 1)
      (List.replicate 999 ["A", "A", "B"])).2.2 ["A", "A", "B"]
      (fun i j => if (([0, 1, 2] : List ℕ).getD i 0) = (([0, 1, 2] : List ℕ).getD j 0)
        then (0 : ℚ) else 1)
      hg.symm (by simp only [hidx]) (by decide) (by decide)
      (by simpa [hd] using hw)
      (List.length_replicate _ _)
      (by
        intro lab hl
        rw [List.eq_of_mem_replicate hl]
        exact ⟨rfl, by simpa [hd] using hw⟩)
  rw [heq, hF, List.map_replicate, hF]
  have hcount : ∀ n : ℕ,
      ((List.replicate n (1 : ℚ)).filter (fun x => decide ((1 : ℚ) ≤ x))).length = n := by
    intro n
    induction n with
    | zero => rfl
    | succ k ih =>
        rw [List.replicate_succ, List.filter_cons, if_pos (by norm_num)]
        simp [ih]
  rw [hcount 999]
  norm_num

end Metab
